import Mathlib

/-!
Verification development for the SopsSecretGenerator Kustomize plugin
(`SopsSecretGenerator.go`).  The Go program is shallowly embedded: pure
string/byte manipulation is translated to Lean functions over `List Nat`
(bytes) and `String`; Go maps (`map[string]string`) are modelled as
association lists where an insert prepends and a lookup takes the first
match, which reproduces the overwrite-on-insert / read semantics of a Go
map; fallible code returns `Except Err`.  The external collaborators
(filesystem + sops decryption, format inference, YAML/JSON unmarshalling)
are passed in as an explicit `Ext` record of oracles, exactly as the spec
treats them (opaque `decrypt(rawBytes, formatHint)` etc.).
-/

namespace SSG

/-- Error type mirroring the error values produced in
`SopsSecretGenerator.go`.  Each constructor corresponds to one
`errors.New` / `fmt.Errorf` / `errors.Wrapf` site in the source. -/
inductive Err where
  /-- `fmt.Errorf("invalid UTF-8 bytes: %v", string(line))` in `parseDotEnvLine`. -/
  | invalidUTF8 : List Nat → Err
  /-- `fmt.Errorf("requires value: %v", string(line))` in `parseDotEnvLine`. -/
  | requiresValue : List Nat → Err
  /-- `errors.Wrapf(err, "line %d", lineNum)` in `parseDotEnvContent`. -/
  | line : Nat → Err → Err
  /-- `errors.Wrapf(err, "env source %s", source)` in `parseEnvSources`. -/
  | envSource : String → Err → Err
  /-- `errors.Wrapf(err, "file source %s", source)` in `parseFileSources`. -/
  | fileSource : String → Err → Err
  /-- `fmt.Errorf("key name for file path %s missing", fn)` in `parseFileName`. -/
  | keyMissing : String → Err
  /-- `fmt.Errorf("file path for key name %s missing", key)` in `parseFileName`. -/
  | pathMissing : String → Err
  /-- `errors.New("key names or file paths cannot contain =")` in `parseFileName`. -/
  | ambiguousEq : Err
  /-- `errors.New("unknown file format, use dotenv, yaml or json")` in `parseEnvSource`. -/
  | unknownFormat : Err
  /-- `errors.Errorf("input must be apiVersion ..., kind ...")` in `readInput`. -/
  | badTypeMeta : Err
  /-- `errors.New("input must contain metadata.name value")` in `readInput`. -/
  | emptyName : Err
  /-- An error surfaced by one of the external oracles (file read / sops
  decryption failure, YAML/JSON unmarshal failure). -/
  | external : String → Err
deriving DecidableEq, Repr

/-- Format classification returned by the (external) `formats.FormatForPath`;
the constructors are the values the `switch` in `parseEnvSource`
distinguishes (`Ini` and `Binary` both fall into the `default` branch). -/
inductive FileFormat where
  | dotenv | yaml | json | ini | binary
deriving DecidableEq, Repr

/-- The accumulating key/value mapping (`kvMap`, i.e. `map[string]string`,
with keys that are arbitrary byte strings).  Modelled as an association
list: `kvInsert` prepends and `kvLookup` takes the first match, which gives
Go-map read/overwrite semantics. -/
abbrev kvMap : Type := List (List Nat × String)

/-- Map write `data[k] = v` of a Go map: later writes shadow earlier ones. -/
def kvInsert (data : kvMap) (k : List Nat) (v : String) : kvMap :=
  (k, v) :: data

/-- Map read of a Go map modelled on the association list: first (most
recent) binding wins. -/
def kvLookup (k : List Nat) : kvMap → Option String
  | [] => none
  | (k1, v) :: rest => if k1 = k then some v else kvLookup k rest

/-- Lookup in a `map[string]string` modelled as an association list with
`String` keys (used for annotations). -/
def annLookup (k : String) : List (String × String) → Option String
  | [] => none
  | (k1, v) :: rest => if k1 = k then some v else annLookup k rest

/-- Character of the standard base64 alphabet at index `n`
(`encoding/base64.StdEncoding`). -/
def b64Char (n : Nat) : Char :=
  if n < 26 then Char.ofNat (65 + n)
  else if n < 52 then Char.ofNat (71 + n)
  else if n < 62 then Char.ofNat (n - 4)
  else if n = 62 then Char.ofNat 43
  else Char.ofNat 47

/-- Standard base64 encoding with padding, three input bytes at a time
(`base64.StdEncoding.EncodeToString`). -/
def b64Chars : List Nat → List Char
  | [] => []
  | [b1] => [b64Char (b1 / 4), b64Char (b1 % 4 * 16), Char.ofNat 61, Char.ofNat 61]
  | [b1, b2] =>
      [b64Char (b1 / 4), b64Char (b1 % 4 * 16 + b2 / 16), b64Char (b2 % 16 * 4), Char.ofNat 61]
  | b1 :: b2 :: b3 :: rest =>
      b64Char (b1 / 4) :: b64Char (b1 % 4 * 16 + b2 / 16) ::
      b64Char (b2 % 16 * 4 + b3 / 64) :: b64Char (b3 % 64) :: b64Chars rest

/-- Go `base64.StdEncoding.EncodeToString` over a byte list. -/
def base64Encode (bytes : List Nat) : String :=
  String.mk (b64Chars bytes)

/-- UTF-8 encoding of a single code point (used to turn Lean string literals
into the byte lists the Go code works on). -/
def utf8EncodeChar (c : Nat) : List Nat :=
  if c < 128 then [c]
  else if c < 2048 then [192 + c / 64, 128 + c % 64]
  else if c < 65536 then [224 + c / 4096, 128 + c / 64 % 64, 128 + c % 64]
  else [240 + c / 262144, 128 + c / 4096 % 64, 128 + c / 64 % 64, 128 + c % 64]

/-- Byte list (UTF-8) of a Lean string; the Go code sees file contents and
descriptor strings as byte strings. -/
def strBytes (s : String) : List Nat :=
  List.foldr (fun c acc => utf8EncodeChar c.toNat ++ acc) [] s.data

/-- Continuation byte test for UTF-8 decoding (`0x80 ≤ b ≤ 0xBF`). -/
def isCont (b : Nat) : Bool :=
  decide (128 ≤ b) && decide (b ≤ 191)

/-- Decode the first rune of a byte list following Go's
`unicode/utf8.DecodeRune` validity rules (rejecting overlong encodings,
surrogates, and code points above U+10FFFF).  Returns the code point and
the number of bytes consumed. -/
def decodeRune : List Nat → Option (Nat × Nat)
  | [] => none
  | b0 :: rest =>
    if b0 < 128 then some (b0, 1)
    else if 194 ≤ b0 ∧ b0 ≤ 223 then
      match rest with
      | b1 :: _ => if isCont b1 then some ((b0 - 192) * 64 + (b1 - 128), 2) else none
      | [] => none
    else if 224 ≤ b0 ∧ b0 ≤ 239 then
      match rest with
      | b1 :: b2 :: _ =>
        if (decide ((if b0 = 224 then 160 else 128) ≤ b1) &&
            decide (b1 ≤ if b0 = 237 then 159 else 191)) && isCont b2 then
          some ((b0 - 224) * 4096 + (b1 - 128) * 64 + (b2 - 128), 3)
        else none
      | _ => none
    else if 240 ≤ b0 ∧ b0 ≤ 244 then
      match rest with
      | b1 :: b2 :: b3 :: _ =>
        if ((decide ((if b0 = 240 then 144 else 128) ≤ b1) &&
             decide (b1 ≤ if b0 = 244 then 143 else 191)) && isCont b2) && isCont b3 then
          some ((b0 - 240) * 262144 + (b1 - 128) * 4096 + (b2 - 128) * 64 + (b3 - 128), 4)
        else none
      | _ => none
    else none

/-- Fuel-driven worker for `utf8Valid`; the fuel is the byte count, enough
because every decoding step consumes at least one byte. -/
def utf8ValidAux : Nat → List Nat → Bool
  | _, [] => true
  | 0, _ => false
  | fuel + 1, l =>
    match decodeRune l with
    | some (_, n) => utf8ValidAux fuel (l.drop n)
    | none => false

/-- Go `utf8.Valid` over a byte list. -/
def utf8Valid (l : List Nat) : Bool :=
  utf8ValidAux l.length l

/-- Go `unicode.IsSpace` (the Unicode White_Space property). -/
def isGoSpace (c : Nat) : Bool :=
  c == 9 || c == 10 || c == 11 || c == 12 || c == 13 || c == 32 ||
  c == 133 || c == 160 || c == 5760 ||
  (decide (8192 ≤ c) && decide (c ≤ 8202)) ||
  c == 8232 || c == 8233 || c == 8239 || c == 8287 || c == 12288

/-- Fuel-driven worker for `trimLeftSpace`; fuel is the byte count. -/
def trimLeftSpaceAux : Nat → List Nat → List Nat
  | 0, l => l
  | fuel + 1, l =>
    match decodeRune l with
    | some (cp, n) => if isGoSpace cp then trimLeftSpaceAux fuel (l.drop n) else l
    | none => l

/-- Go `bytes.TrimLeftFunc(line, unicode.IsSpace)`: drop leading runes that
are Unicode white space, stopping at the first non-space rune or at the
first invalid byte (`DecodeRune` yields `RuneError`, which is not space). -/
def trimLeftSpace (l : List Nat) : List Nat :=
  trimLeftSpaceAux l.length l

/-- Go `strings.SplitN(string(line), "=", 2)` restricted to the case the
caller uses: scan for the first `=` (byte 61) and split there; `none` when
the byte does not occur. -/
def splitFirstEq : List Nat → Option (List Nat × List Nat)
  | [] => none
  | b :: rest =>
    if b = 61 then some ([], rest)
    else
      match splitFirstEq rest with
      | some (k, v) => some (b :: k, v)
      | none => none

/-- Go function `parseDotEnvLine` (`SopsSecretGenerator.go` lines 276-294):
reject invalid UTF-8, strip leading white space, skip blank and `#` lines,
split at the first `=` and store the base64 of the verbatim value bytes. -/
def parseDotEnvLine (aLine : List Nat) (data : kvMap) : Except Err kvMap :=
  if utf8Valid aLine then
    match trimLeftSpace aLine with
    | [] => .ok data
    | c :: rest =>
      if c = 35 then .ok data
      else
        match splitFirstEq (c :: rest) with
        | some (k, v) => .ok (kvInsert data k (base64Encode v))
        | none => .error (.requiresValue (c :: rest))
  else .error (.invalidUTF8 aLine)

/-- Split a list on every occurrence of the separator `c` (the splitting
underlying both `strings.Split` in `parseFileName` and the newline chunking
of `bufio.ScanLines`). -/
def splitOnSep {α : Type} [DecidableEq α] (c : α) : List α → List (List α)
  | [] => [[]]
  | x :: xs =>
    if x = c then [] :: splitOnSep c xs
    else
      match splitOnSep c xs with
      | h :: t => (x :: h) :: t
      | [] => [[x]]

/-- The `dropCR` step of `bufio.ScanLines`: remove one trailing carriage
return (byte 13) if present. -/
def dropCR (l : List Nat) : List Nat :=
  if l.getLast? = some 13 then l.dropLast else l

/-- Line splitting as performed by `bufio.Scanner` with `ScanLines`: split
on newline (byte 10), do not report a trailing empty token when the content
ends with a newline, and remove one trailing carriage return from every
line (also from a final line that has no newline terminator).  The
scanner's maximum-token-size limit is not modelled. -/
def splitLines (content : List Nat) : List (List Nat) :=
  let chunks := splitOnSep 10 content
  let chunks := if chunks.getLast? = some [] then chunks.dropLast else chunks
  chunks.map dropCR

/-- The UTF-8 byte order mark, `var utf8bom = []byte{0xEF, 0xBB, 0xBF}`. -/
def utf8bom : List Nat := [239, 187, 191]

/-- Go `bytes.TrimPrefix(line, utf8bom)`: drop the byte order mark when it
is a prefix, otherwise return the line unchanged. -/
def trimBom (l : List Nat) : List Nat :=
  if utf8bom.isPrefixOf l then l.drop utf8bom.length else l

/-- Loop body of `parseDotEnvContent`: process the scanned lines starting
at line number `lineNum`, stripping the UTF-8 byte order mark only when
`lineNum = 0`, and wrapping a line's error with its 0-indexed number. -/
def parseDotEnvLines : List (List Nat) → Nat → kvMap → Except Err kvMap
  | [], _, data => .ok data
  | l :: rest, lineNum, data =>
    match parseDotEnvLine (if lineNum = 0 then trimBom l else l) data with
    | .error e => .error (.line lineNum e)
    | .ok data => parseDotEnvLines rest (lineNum + 1) data

/-- Go function `parseDotEnvContent` (`SopsSecretGenerator.go` lines
258-274): scan the content line by line, strip the byte order mark from the
first line only, and fold `parseDotEnvLine` over the lines. -/
def parseDotEnvContent (content : List Nat) (data : kvMap) : Except Err kvMap :=
  parseDotEnvLines (splitLines content) 0 data

/-- Go standard library `path.Base`: strip trailing slashes, take the part
after the last remaining slash; empty input gives `"."` and an all-slash
input gives `"/"`. -/
def pathBase (p : List Char) : List Char :=
  if p = [] then [Char.ofNat 46]
  else
    let q := (p.reverse.dropWhile (fun c => c == Char.ofNat 47)).reverse
    let r := (q.reverse.takeWhile (fun c => c != Char.ofNat 47)).reverse
    if r = [] then [Char.ofNat 47] else r

/-- Go function `parseFileName` (`SopsSecretGenerator.go` lines 358-375):
split the descriptor on `=`; one component means the descriptor is the
path and its basename the key; two components are `key=path` with both
sides required non-empty; more components are rejected. -/
def parseFileName (source : String) : Except Err (String × String) :=
  match splitOnSep (Char.ofNat 61) source.data with
  | [_] => .ok (String.mk (pathBase source.data), source)
  | [k, f] =>
    if k = [] then .error (.keyMissing (String.mk f))
    else if f = [] then .error (.pathMissing (String.mk k))
    else .ok (String.mk k, String.mk f)
  | _ => .error .ambiguousEq

/-- The `SopsSecretGenerator` input manifest after YAML deserialization
(struct `SopsSecretGenerator` with its inlined `TypeMeta`/`ObjectMeta`);
the third-party `yaml.Unmarshal` step itself is outside the embedding. -/
structure SopsSecretGenerator where
  apiVersion : String
  kind : String
  name : String
  namespace1 : String
  labels : List (String × String)
  annotations : List (String × String)
  envSources : List String
  fileSources : List String
  behavior : String
  disableNameSuffixHash : Bool
  type : String
deriving DecidableEq, Repr

/-- The generated Kubernetes `Secret` (struct `Secret` in the source). -/
structure Secret where
  apiVersion : String
  kind : String
  name : String
  namespace1 : String
  labels : List (String × String)
  annotations : List (String × String)
  data : kvMap
  type : String
deriving DecidableEq

/-- The external collaborators of the pipeline, kept opaque exactly as the
spec prescribes: `decryptFile` is the composition of `os.ReadFile` and
`decrypt.DataWithFormat` (already wrapped errors), `formatForPath` is
`formats.FormatForPath`, and `yamlParse`/`jsonParse` are the third-party
unmarshallers of a flat string-to-string mapping, returning the parsed
pairs (a Go map has distinct keys) as byte strings. -/
structure Ext where
  decryptFile : String → Except Err (List Nat)
  formatForPath : String → FileFormat
  yamlParse : List Nat → Except Err (List (List Nat × List Nat))
  jsonParse : List Nat → Except Err (List (List Nat × List Nat))

/-- `const apiVersion = "kustomize.freightdog.com/v1"`. -/
def apiVersion : String := "kustomize.freightdog.com/v1"

/-- `const kind = "SopsSecretGenerator"`. -/
def kind : String := "SopsSecretGenerator"

/-- `var stripAnnotations`: the two annotation keys removed when copying
annotations from the request to the Secret (modelled as the list of keys
of the Go set). -/
def stripAnnotations : List String :=
  ["config.kubernetes.io/local-config", "config.kubernetes.io/function"]

/-- Go function `readInput` (`SopsSecretGenerator.go` lines 190-210),
after the third-party YAML deserialization: validate the fixed
`apiVersion`/`kind` pair and the non-empty `metadata.name`. -/
def readInput (input : SopsSecretGenerator) : Except Err SopsSecretGenerator :=
  if input.apiVersion ≠ apiVersion ∨ input.kind ≠ kind then .error .badTypeMeta
  else if input.name = "" then .error .emptyName
  else .ok input

/-- Go function `parseYAMLContent`: unmarshal a flat string map (external
oracle) and fold the pairs into the data map, base64-encoding each value. -/
def parseYAMLContent (ext : Ext) (content : List Nat) (data : kvMap) : Except Err kvMap :=
  match ext.yamlParse content with
  | .error e => .error e
  | .ok kvs => .ok (kvs.foldl (fun d kv => kvInsert d kv.1 (base64Encode kv.2)) data)

/-- Go function `parseJSONContent`: like `parseYAMLContent` via JSON. -/
def parseJSONContent (ext : Ext) (content : List Nat) (data : kvMap) : Except Err kvMap :=
  match ext.jsonParse content with
  | .error e => .error e
  | .ok kvs => .ok (kvs.foldl (fun d kv => kvInsert d kv.1 (base64Encode kv.2)) data)

/-- Go function `parseEnvSource` (`SopsSecretGenerator.go` lines 235-256):
decrypt the source file, then dispatch on the format inferred from the
path (dotenv / YAML / JSON; anything else is rejected). -/
def parseEnvSource (ext : Ext) (source : String) (data : kvMap) : Except Err kvMap :=
  match ext.decryptFile source with
  | .error e => .error e
  | .ok decrypted =>
    match ext.formatForPath source with
    | .dotenv => parseDotEnvContent decrypted data
    | .yaml => parseYAMLContent ext decrypted data
    | .json => parseJSONContent ext decrypted data
    | _ => .error .unknownFormat

/-- Go function `parseEnvSources`: process env sources in declaration
order, wrapping a failure with the offending source string. -/
def parseEnvSources (ext : Ext) : List String → kvMap → Except Err kvMap
  | [], data => .ok data
  | source :: rest, data =>
    match parseEnvSource ext source data with
    | .error e => .error (.envSource source e)
    | .ok data => parseEnvSources ext rest data

/-- Go function `parseFileSource` (`SopsSecretGenerator.go` lines 343-356):
resolve the `key=path` descriptor, decrypt the path, and store the base64
of the whole decrypted payload under the key. -/
def parseFileSource (ext : Ext) (source : String) (data : kvMap) : Except Err kvMap :=
  match parseFileName source with
  | .error e => .error e
  | .ok (key, fname) =>
    match ext.decryptFile fname with
    | .error e => .error e
    | .ok decrypted => .ok (kvInsert data (strBytes key) (base64Encode decrypted))

/-- Go function `parseFileSources`: process file sources in declaration
order, wrapping a failure with the offending source string. -/
def parseFileSources (ext : Ext) : List String → kvMap → Except Err kvMap
  | [], data => .ok data
  | source :: rest, data =>
    match parseFileSource ext source data with
    | .error e => .error (.fileSource source e)
    | .ok data => parseFileSources ext rest data

/-- Go function `parseInput` (`SopsSecretGenerator.go` lines 212-223): all
env sources first, then all file sources, into one shared data map. -/
def parseInput (ext : Ext) (input : SopsSecretGenerator) : Except Err kvMap :=
  match parseEnvSources ext input.envSources [] with
  | .error e => .error e
  | .ok data => parseFileSources ext input.fileSources data

/-- Annotation assembly of `generateSecret` (`SopsSecretGenerator.go`
lines 150-162): copy the request's annotations except the two
`stripAnnotations` keys, then add `needs-hash` unless disabled, then add
the behavior annotation when a behavior is set. -/
def secretAnnotations (input : SopsSecretGenerator) : List (String × String) :=
  let base := input.annotations.filter (fun kv => !(stripAnnotations.contains kv.1))
  let withHash :=
    if input.disableNameSuffixHash then base
    else ("kustomize.config.k8s.io/needs-hash", "true") :: base
  if input.behavior = "" then withHash
  else ("kustomize.config.k8s.io/behavior", input.behavior) :: withHash

/-- Go function `generateSecret` (`SopsSecretGenerator.go` lines 144-179):
parse all sources into the data map and assemble the output Secret with
the propagated metadata. -/
def generateSecret (ext : Ext) (input : SopsSecretGenerator) : Except Err Secret :=
  match parseInput ext input with
  | .error e => .error e
  | .ok data =>
    .ok { apiVersion := "v1"
          kind := "Secret"
          name := input.name
          namespace1 := input.namespace1
          labels := input.labels
          annotations := secretAnnotations input
          data := data
          type := input.type }

/-- Go function `processSopsSecretGenerator` (`SopsSecretGenerator.go`
lines 128-142) over an already-deserialized manifest: validate, then
generate the Secret.  The final `yaml.Marshal` of the Secret is
third-party serialization and is not part of the embedding. -/
def processSopsSecretGenerator (ext : Ext) (input : SopsSecretGenerator) : Except Err Secret :=
  match readInput input with
  | .error e => .error e
  | .ok input => generateSecret ext input

/-- A `fn.KubeObject` of the resource list: either a (deserialized)
generator manifest or a Secret. -/
inductive KObj where
  | gen : SopsSecretGenerator → KObj
  | secretObj : Secret → KObj
deriving DecidableEq

/-- Whether a resource-list item is a generated Secret. -/
def KObj.isSecretItem : KObj → Bool
  | .secretObj _ => true
  | .gen _ => false

/-- Processing of one resource-list item by `generateKRMManifest`: the
item's manifest is handed to `processSopsSecretGenerator`; an item that is
not a SopsSecretGenerator fails its `readInput` type-meta validation. -/
def processKObj (ext : Ext) : KObj → Except Err Secret
  | .gen g => processSopsSecretGenerator ext g
  | .secretObj _ => .error .badTypeMeta

/-- The loop of `generateKRMManifest` (`SopsSecretGenerator.go` lines
104-126): process items in order, collecting the generated Secrets, and
stop at the first failure. -/
def runItems (ext : Ext) : List KObj → Except Err (List KObj)
  | [] => .ok []
  | item :: rest =>
    match processKObj ext item with
    | .error e => .error e
    | .ok s =>
      match runItems ext rest with
      | .error e => .error e
      | .ok secrets => .ok (.secretObj s :: secrets)

/-- Go function `generateKRMManifest`: on success the resource list's
items are replaced by the generated Secrets and `(true, nil)` is returned;
on the first failure the function returns `(false, err)` after logging the
error, leaving `rl.Items` unchanged (the gathered Secrets are discarded).
The result is `(items, success flag, reported error)`. -/
def generateKRMManifest (ext : Ext) (items : List KObj) :
    List KObj × Bool × Option Err :=
  match runItems ext items with
  | .ok secrets => (secrets, true, none)
  | .error e => (items, false, some e)

deriving instance DecidableEq for Except

/-! Helper lemmas about the embedded library primitives. -/

theorem splitOnSep_ne_nil {α : Type} [DecidableEq α] (c : α) (l : List α) :
    splitOnSep c l ≠ [] := by
  cases l with
  | nil => simp [splitOnSep]
  | cons x xs =>
    by_cases hx : x = c
    · simp [splitOnSep, hx]
    · simp only [splitOnSep, if_neg hx]
      cases splitOnSep c xs <;> simp

theorem splitOnSep_of_not_mem {α : Type} [DecidableEq α] (c : α) (l : List α)
    (h : c ∉ l) : splitOnSep c l = [l] := by
  induction l with
  | nil => rfl
  | cons x xs ih =>
    have hx : x ≠ c := fun he => h (he ▸ List.mem_cons_self x xs)
    have hxs : c ∉ xs := fun hm => h (List.mem_cons_of_mem x hm)
    simp only [splitOnSep, if_neg hx, ih hxs]

theorem splitOnSep_append {α : Type} [DecidableEq α] (c : α) (a r : List α)
    (ha : c ∉ a) : splitOnSep c (a ++ c :: r) = a :: splitOnSep c r := by
  induction a with
  | nil => simp [splitOnSep]
  | cons x xs ih =>
    have hx : x ≠ c := fun he => ha (he ▸ List.mem_cons_self x xs)
    have hxs : c ∉ xs := fun hm => ha (List.mem_cons_of_mem x hm)
    simp only [List.cons_append, splitOnSep, if_neg hx, List.append_eq, ih hxs]

theorem splitOnSep_length {α : Type} [DecidableEq α] (c : α) (l : List α) :
    (splitOnSep c l).length = l.count c + 1 := by
  induction l with
  | nil => simp [splitOnSep]
  | cons x xs ih =>
    by_cases hx : x = c
    · subst hx
      simp [splitOnSep, List.count_cons, ih]
    · simp only [splitOnSep, if_neg hx]
      cases hs : splitOnSep c xs with
      | nil => exact absurd hs (splitOnSep_ne_nil c xs)
      | cons h t =>
        rw [hs] at ih
        simp only [List.length_cons] at ih ⊢
        rw [List.count_cons]
        simp [ih, hx]

theorem not_mem_takeWhile_self {α : Type} [DecidableEq α] (c : α) (l : List α) :
    c ∉ l.takeWhile (fun x => x != c) := by
  intro h
  have := List.mem_takeWhile_imp h
  simp at this

theorem dropWhile_eq_cons_of_mem {α : Type} [DecidableEq α] (c : α) (l : List α)
    (h : c ∈ l) : l.dropWhile (fun x => x != c) = c :: (l.dropWhile (fun x => x != c)).drop 1 := by
  induction l with
  | nil => cases h
  | cons x xs ih =>
    by_cases hx : x = c
    · subst hx
      simp [List.dropWhile_cons]
    · have hm : c ∈ xs := by
        rcases List.mem_cons.mp h with he | hm
        · exact absurd he.symm hx
        · exact hm
      simp only [List.dropWhile_cons, bne_iff_ne, ne_eq, hx, not_false_eq_true, if_pos]
      exact ih hm

theorem break_at_first {α : Type} [DecidableEq α] (c : α) (l : List α) (h : c ∈ l) :
    l = l.takeWhile (fun x => x != c) ++ c :: (l.dropWhile (fun x => x != c)).drop 1 := by
  conv_lhs => rw [← List.takeWhile_append_dropWhile (p := fun x => x != c) (l := l)]
  rw [← dropWhile_eq_cons_of_mem c l h]

theorem splitFirstEq_of_mem (l : List Nat) (h : 61 ∈ l) :
    splitFirstEq l =
      some (l.takeWhile (fun b => b != 61), (l.dropWhile (fun b => b != 61)).drop 1) := by
  induction l with
  | nil => cases h
  | cons b rest ih =>
    by_cases hb : b = 61
    · subst hb
      simp [splitFirstEq, List.takeWhile_cons, List.dropWhile_cons]
    · have hm : 61 ∈ rest := by
        rcases List.mem_cons.mp h with he | hm
        · exact absurd he.symm hb
        · exact hm
      simp [splitFirstEq, if_neg hb, ih hm, List.takeWhile_cons, List.dropWhile_cons, hb]

theorem kvLookup_insert (data : kvMap) (k : List Nat) (v : String) :
    kvLookup k (kvInsert data k v) = some v := by
  simp [kvInsert, kvLookup]

theorem parseFileSources_append (ext : Ext) (xs ys : List String) (data : kvMap) :
    parseFileSources ext (xs ++ ys) data =
      match parseFileSources ext xs data with
      | .error e => .error e
      | .ok d => parseFileSources ext ys d := by
  induction xs generalizing data with
  | nil => simp [parseFileSources]
  | cons s rest ih =>
    simp only [List.cons_append, parseFileSources]
    cases parseFileSource ext s data with
    | error e => rfl
    | ok d => exact ih d

theorem dropCR_append (a b : List Nat) (hb : b ≠ []) :
    dropCR (a ++ b) = a ++ dropCR b := by
  unfold dropCR
  rw [List.getLast?_append_of_ne_nil _ hb]
  split
  · rw [List.dropLast_append_of_ne_nil _ hb]
  · rfl

theorem dropCR_bom_append (a : List Nat) :
    dropCR (utf8bom ++ a) = utf8bom ++ dropCR a := by
  cases ha : a with
  | nil => decide
  | cons b bs => exact dropCR_append utf8bom (b :: bs) (by simp)

theorem dropCR_prefix_self (l : List Nat) : dropCR l <+: l := by
  unfold dropCR
  split
  · exact List.dropLast_prefix l
  · exact List.prefix_refl l

theorem dropCR_concat (v : List Nat) : dropCR (v ++ [13]) = v := by
  unfold dropCR
  rw [List.getLast?_concat, List.dropLast_concat]
  simp

theorem splitLines_append (a r : List Nat) (ha : 10 ∉ a) :
    splitLines (a ++ 10 :: r) = dropCR a :: splitLines r := by
  simp only [splitLines]
  rw [splitOnSep_append 10 a r ha]
  cases hS : splitOnSep 10 r with
  | nil => exact absurd hS (splitOnSep_ne_nil 10 r)
  | cons s0 S1 =>
    by_cases hlast : (s0 :: S1).getLast? = some ([] : List Nat)
    · simp [List.getLast?_cons_cons, hlast, List.dropLast]
    · simp [List.getLast?_cons_cons, hlast, List.dropLast]

theorem splitLines_no_nl (a : List Nat) (ha : 10 ∉ a) (hne : a ≠ []) :
    splitLines a = [dropCR a] := by
  simp only [splitLines]
  rw [splitOnSep_of_not_mem 10 a ha]
  simp [hne]

theorem trimBom_bom_append (x : List Nat) : trimBom (utf8bom ++ x) = x := by
  unfold trimBom
  have h : utf8bom.isPrefixOf (utf8bom ++ x) = true :=
    List.isPrefixOf_iff_prefix.mpr ⟨x, rfl⟩
  rw [h]
  exact List.drop_left utf8bom x

theorem trimBom_of_not_prefix (l : List Nat) (h : utf8bom.isPrefixOf l = false) :
    trimBom l = l := by
  unfold trimBom
  rw [h]
  rfl

theorem parseDotEnvLines_cons_zero (l : List Nat) (rest : List (List Nat)) (data : kvMap) :
    parseDotEnvLines (l :: rest) 0 data =
      match parseDotEnvLine (trimBom l) data with
      | .error e => .error (.line 0 e)
      | .ok d => parseDotEnvLines rest 1 d := by
  simp [parseDotEnvLines]

theorem annLookup_filter_strip (l : List (String × String)) (k : String)
    (hk : k ∈ stripAnnotations) :
    annLookup k (l.filter (fun kv => !(stripAnnotations.contains kv.1))) = none := by
  induction l with
  | nil => rfl
  | cons kv rest ih =>
    by_cases hkv : kv.1 ∈ stripAnnotations
    · simp only [List.filter_cons]
      rw [if_neg (by simp [hkv])]
      exact ih
    · have hne : kv.1 ≠ k := fun he => hkv (he ▸ hk)
      simp only [List.filter_cons]
      rw [if_pos (by simp [hkv])]
      simp only [annLookup, if_neg hne]
      exact ih

theorem annLookup_filter_of_none (l : List (String × String)) (k : String)
    (p : String × String → Bool) (h : annLookup k l = none) :
    annLookup k (l.filter p) = none := by
  induction l with
  | nil => rfl
  | cons kv rest ih =>
    simp only [annLookup] at h
    by_cases hne : kv.1 = k
    · rw [if_pos hne] at h; cases h
    · rw [if_neg hne] at h
      by_cases hp : p kv = true
      · simp [List.filter_cons, hp, annLookup, hne, ih h]
      · simp [List.filter_cons, hp, ih h]

theorem annLookup_cons_ne (k k1 v : String) (l : List (String × String)) (h : k1 ≠ k) :
    annLookup k ((k1, v) :: l) = annLookup k l := by
  simp [annLookup, h]

theorem annLookup_secretAnnotations_none (input : SopsSecretGenerator) (k : String)
    (hk : k ∈ stripAnnotations)
    (h1 : "kustomize.config.k8s.io/needs-hash" ≠ k)
    (h2 : "kustomize.config.k8s.io/behavior" ≠ k) :
    annLookup k (secretAnnotations input) = none := by
  have hfil := annLookup_filter_strip input.annotations k hk
  simp only [secretAnnotations]
  split
  · split
    · exact hfil
    · rw [annLookup_cons_ne _ _ _ _ h1]
      exact hfil
  · split
    · rw [annLookup_cons_ne _ _ _ _ h2]
      exact hfil
    · rw [annLookup_cons_ne _ _ _ _ h2, annLookup_cons_ne _ _ _ _ h1]
      exact hfil

theorem generateSecret_ok_annotations (ext : Ext) (input : SopsSecretGenerator) (s : Secret)
    (h : generateSecret ext input = .ok s) :
    s.annotations = secretAnnotations input := by
  unfold generateSecret at h
  cases hp : parseInput ext input with
  | error e => rw [hp] at h; cases h
  | ok data =>
    rw [hp] at h
    injection h with h1
    rw [← h1]

/-! Concrete fixtures used by the witness and counterexample theorems. -/

/-- A stub oracle record: every external call fails.  Used where the
sources are never (or must never be) consulted. -/
def extStub : Ext :=
  { decryptFile := fun _ => .error (.external "unused")
    formatForPath := fun _ => .binary
    yamlParse := fun _ => .error (.external "unused")
    jsonParse := fun _ => .error (.external "unused") }

/-- A request whose `kind` does not match the expected constant but which
declares env and file sources. -/
def badKindInput : SopsSecretGenerator :=
  { apiVersion := "kustomize.freightdog.com/v1", kind := "Deployment", name := "x"
    namespace1 := "", labels := [], annotations := [], envSources := ["a.env"]
    fileSources := ["f.txt"], behavior := "", disableNameSuffixHash := false, type := "" }

/-! Claim theorems. -/

/-- C1: for every input document whose apiVersion is not exactly
`kustomize.freightdog.com/v1`, whose kind is not exactly
`SopsSecretGenerator`, or whose metadata.name is empty, processing returns
a validation error, no Secret is produced, and no source is read or
decrypted: the outcome is the same fixed error for every choice of the
external oracles, so validation happens before any env or file source is
touched. -/
theorem readInput_validates_before_sources (input : SopsSecretGenerator)
    (h : input.apiVersion ≠ apiVersion ∨ input.kind ≠ kind ∨ input.name = "") :
    (∀ ext : Ext, processSopsSecretGenerator ext input =
        .error (if input.apiVersion ≠ apiVersion ∨ input.kind ≠ kind
                then Err.badTypeMeta else Err.emptyName))
    ∧ ∀ ext1 ext2 : Ext,
        processSopsSecretGenerator ext1 input = processSopsSecretGenerator ext2 input := by
  have key : ∀ ext : Ext, processSopsSecretGenerator ext input =
      .error (if input.apiVersion ≠ apiVersion ∨ input.kind ≠ kind
              then Err.badTypeMeta else Err.emptyName) := by
    intro ext
    unfold processSopsSecretGenerator readInput
    by_cases h1 : input.apiVersion ≠ apiVersion ∨ input.kind ≠ kind
    · rw [if_pos h1, if_pos h1]
    · have h2 : input.name = "" := by
        rcases h with ha | hb | hc
        · exact absurd (Or.inl ha) h1
        · exact absurd (Or.inr hb) h1
        · exact hc
      rw [if_neg h1, if_pos h2, if_neg h1]
  exact ⟨key, fun e1 e2 => (key e1).trans (key e2).symm⟩

/-- Witness for C1 at a concrete request with a wrong `kind` and non-empty
source lists. -/
theorem readInput_validates_before_sources_witness :
    processSopsSecretGenerator extStub badKindInput =
      .error (if badKindInput.apiVersion ≠ apiVersion ∨ badKindInput.kind ≠ kind
              then Err.badTypeMeta else Err.emptyName) :=
  (readInput_validates_before_sources badKindInput (Or.inr (Or.inl (by decide)))).1 extStub

/-- C2 counterexample: the claim quantifies over every line whose trimmed
form is non-blank, not a comment and contains `=`, but a line containing
an invalid UTF-8 byte (here `0xFF`) meets those conditions and is
rejected by the UTF-8 validity check instead of being stored. -/
theorem dotenv_line_utf8_counterexample :
    trimLeftSpace [255, 61, 65] ≠ []
    ∧ (trimLeftSpace [255, 61, 65]).head? ≠ some 35
    ∧ 61 ∈ trimLeftSpace [255, 61, 65]
    ∧ parseDotEnvLine [255, 61, 65] [] = .error (.invalidUTF8 [255, 61, 65])
    ∧ parseDotEnvLine [255, 61, 65] [] ≠
        .ok (kvInsert [] ((trimLeftSpace [255, 61, 65]).takeWhile (fun b => b != 61))
              (base64Encode (((trimLeftSpace [255, 61, 65]).dropWhile (fun b => b != 61)).drop 1))) := by
  decide

/-- C2 (amended: the line must additionally be valid UTF-8, which the code
checks first): for every valid-UTF-8 dotenv line that, after stripping
leading whitespace, is non-blank, does not start with `#`, and contains at
least one `=`, extraction splits the trimmed line at the first `=` only
and stores, under the key left of that `=`, the base64 encoding of the
exact remaining bytes of the line, unmodified even if they contain further
`=` characters. -/
theorem dotenv_line_splits_at_first_eq (aLine : List Nat) (data : kvMap)
    (hv : utf8Valid aLine = true)
    (hne : trimLeftSpace aLine ≠ [])
    (hhash : (trimLeftSpace aLine).head? ≠ some 35)
    (heq : 61 ∈ trimLeftSpace aLine) :
    parseDotEnvLine aLine data =
      .ok (kvInsert data ((trimLeftSpace aLine).takeWhile (fun b => b != 61))
            (base64Encode (((trimLeftSpace aLine).dropWhile (fun b => b != 61)).drop 1))) := by
  unfold parseDotEnvLine
  rw [if_pos hv]
  cases ht : trimLeftSpace aLine with
  | nil => exact absurd ht hne
  | cons c rest =>
    rw [ht] at hhash heq
    have hc : c ≠ 35 := fun he => hhash (by rw [he]; rfl)
    simp only [if_neg hc, splitFirstEq_of_mem (c :: rest) heq]

/-- Witness for C2 on the line `"  FOO=a=b"`: key `FOO`, value `a=b`. -/
theorem dotenv_line_splits_at_first_eq_witness :
    parseDotEnvLine (strBytes "  FOO=a=b") [] =
      .ok (kvInsert [] ((trimLeftSpace (strBytes "  FOO=a=b")).takeWhile (fun b => b != 61))
            (base64Encode (((trimLeftSpace (strBytes "  FOO=a=b")).dropWhile (fun b => b != 61)).drop 1))) :=
  dotenv_line_splits_at_first_eq _ _ (by decide) (by decide) (by decide) (by decide)

/-- C3: a file-source descriptor with zero `=` yields (basename, full
descriptor); with exactly one `=` it splits there, rejecting an empty key
or an empty path with an error naming the missing side; with two or more
`=` it is rejected as ambiguous. -/
theorem parseFileName_cases (s : String) :
    (s.data.count (Char.ofNat 61) = 0 →
       parseFileName s = .ok (String.mk (pathBase s.data), s))
    ∧ (s.data.count (Char.ofNat 61) = 1 →
       parseFileName s =
         (if s.data.takeWhile (fun x => x != Char.ofNat 61) = [] then
            .error (.keyMissing
              (String.mk ((s.data.dropWhile (fun x => x != Char.ofNat 61)).drop 1)))
          else if (s.data.dropWhile (fun x => x != Char.ofNat 61)).drop 1 = [] then
            .error (.pathMissing
              (String.mk (s.data.takeWhile (fun x => x != Char.ofNat 61))))
          else
            .ok (String.mk (s.data.takeWhile (fun x => x != Char.ofNat 61)),
                 String.mk ((s.data.dropWhile (fun x => x != Char.ofNat 61)).drop 1))))
    ∧ (2 ≤ s.data.count (Char.ofNat 61) → parseFileName s = .error .ambiguousEq) := by
  refine ⟨?_, ?_, ?_⟩
  · intro h0
    have hsp : splitOnSep (Char.ofNat 61) s.data = [s.data] :=
      splitOnSep_of_not_mem _ _ (List.count_eq_zero.mp h0)
    unfold parseFileName
    rw [hsp]
  · intro h1
    have hmem : Char.ofNat 61 ∈ s.data := by
      by_contra hm
      rw [List.count_eq_zero.mpr hm] at h1
      cases h1
    have hAB := break_at_first (Char.ofNat 61) s.data hmem
    have hnA := not_mem_takeWhile_self (Char.ofNat 61) s.data
    have hnB : Char.ofNat 61 ∉ (s.data.dropWhile (fun x => x != Char.ofNat 61)).drop 1 := by
      apply List.count_eq_zero.mp
      have hcnt := h1
      rw [hAB] at hcnt
      rw [List.count_append, List.count_cons] at hcnt
      rw [List.count_eq_zero.mpr hnA] at hcnt
      simpa using hcnt
    have hsp : splitOnSep (Char.ofNat 61) s.data =
        [s.data.takeWhile (fun x => x != Char.ofNat 61),
         (s.data.dropWhile (fun x => x != Char.ofNat 61)).drop 1] := by
      conv_lhs => rw [hAB]
      rw [splitOnSep_append _ _ _ hnA, splitOnSep_of_not_mem _ _ hnB]
    unfold parseFileName
    rw [hsp]
  · intro h2
    have hlen : 3 ≤ (splitOnSep (Char.ofNat 61) s.data).length := by
      rw [splitOnSep_length]
      omega
    unfold parseFileName
    cases hsp : splitOnSep (Char.ofNat 61) s.data with
    | nil => rw [hsp] at hlen
    | cons a t1 =>
      cases t1 with
      | nil => rw [hsp] at hlen; simp at hlen
      | cons b t2 =>
        cases t2 with
        | nil => rw [hsp] at hlen; simp at hlen
        | cons c t3 => rfl

/-- Witness for C3 on `a=b` (split), `dir/file.txt` (basename) and
`a=b=c` (ambiguous). -/
theorem parseFileName_cases_witness :
    parseFileName "a=b" = .ok ("a", "b")
    ∧ parseFileName "dir/file.txt" = .ok ("file.txt", "dir/file.txt")
    ∧ parseFileName "a=b=c" = .error .ambiguousEq := by
  refine ⟨?_, ?_, ?_⟩
  · exact ((parseFileName_cases "a=b").2.1 (by decide)).trans (by decide)
  · exact ((parseFileName_cases "dir/file.txt").1 (by decide)).trans (by decide)
  · exact (parseFileName_cases "a=b=c").2.2 (by decide)

/-- Oracle fixture for the collision scenario: an env source `a.env`
decrypting to `FOO=x` and a file `f.txt` decrypting to `y`. -/
def extCollide : Ext :=
  { decryptFile := fun s =>
      if s = "a.env" then .ok (strBytes "FOO=x")
      else if s = "f.txt" then .ok (strBytes "y")
      else .error (.external "missing")
    formatForPath := fun _ => .dotenv
    yamlParse := fun _ => .error (.external "unused")
    jsonParse := fun _ => .error (.external "unused") }

/-- Request fixture for the collision scenario: the env source defines key
`FOO`, the later file source redefines the same key. -/
def collideInput : SopsSecretGenerator :=
  { apiVersion := apiVersion, kind := kind, name := "my-secret", namespace1 := ""
    labels := [], annotations := [], envSources := ["a.env"]
    fileSources := ["FOO=f.txt"], behavior := "", disableNameSuffixHash := false, type := "" }

/-- C4: `parseInput` processes all env sources first and then all file
sources, in declaration order, into one shared key namespace; an insert
for an existing key overwrites it without any collision error, so the key
of the last-processed file source ends up bound to that source's value
even when an earlier env or file source produced the same key. -/
theorem parseInput_env_then_files_last_wins (ext : Ext) (input : SopsSecretGenerator)
    (front : List String) (src k fname : String) (bytes : List Nat) (d : kvMap)
    (hsrcs : input.fileSources = front ++ [src])
    (hname : parseFileName src = .ok (k, fname))
    (hdec : ext.decryptFile fname = .ok bytes)
    (hok : parseInput ext input = .ok d) :
    parseInput ext input =
      (match parseEnvSources ext input.envSources [] with
       | .error e => .error e
       | .ok data => parseFileSources ext input.fileSources data)
    ∧ (∀ (m : kvMap) (kb : List Nat) (v : String), kvLookup kb (kvInsert m kb v) = some v)
    ∧ kvLookup (strBytes k) d = some (base64Encode bytes) := by
  refine ⟨rfl, kvLookup_insert, ?_⟩
  unfold parseInput at hok
  cases henv : parseEnvSources ext input.envSources [] with
  | error e => rw [henv] at hok; cases hok
  | ok d0 =>
    rw [henv] at hok
    replace hok : parseFileSources ext input.fileSources d0 = .ok d := hok
    rw [hsrcs, parseFileSources_append] at hok
    cases hfs : parseFileSources ext front d0 with
    | error e => rw [hfs] at hok; cases hok
    | ok d1 =>
      rw [hfs] at hok
      replace hok : parseFileSources ext [src] d1 = .ok d := hok
      simp only [parseFileSources, parseFileSource, hname, hdec] at hok
      cases hok
      exact kvLookup_insert d1 (strBytes k) (base64Encode bytes)

/-- Witness for C4 on the concrete collision scenario: the shared key
`FOO` ends up bound to the later file source's value `base64 "y"`. -/
theorem parseInput_env_then_files_last_wins_witness :
    kvLookup (strBytes "FOO") [(strBytes "FOO", "eQ=="), (strBytes "FOO", "eA==")] =
      some (base64Encode (strBytes "y")) :=
  (parseInput_env_then_files_last_wins extCollide collideInput [] "FOO=f.txt" "FOO" "f.txt"
      (strBytes "y") [(strBytes "FOO", "eQ=="), (strBytes "FOO", "eA==")]
      rfl (by decide) (by decide) (by decide)).2.2

/-- Request fixture carrying both internal toolchain annotations plus one
ordinary annotation. -/
def stripInput : SopsSecretGenerator :=
  { apiVersion := apiVersion, kind := kind, name := "n", namespace1 := "", labels := []
    annotations := [("config.kubernetes.io/local-config", "x"),
                    ("config.kubernetes.io/function", "y"), ("keep", "z")]
    envSources := [], fileSources := [], behavior := "", disableNameSuffixHash := true
    type := "" }

/-- The Secret generated from `stripInput`: only the ordinary annotation
survives. -/
def stripSecret : Secret :=
  { apiVersion := "v1", kind := "Secret", name := "n", namespace1 := "", labels := []
    annotations := [("keep", "z")], data := [], type := "" }

/-- C5: the generated Secret's annotations never contain the keys
`config.kubernetes.io/local-config` or `config.kubernetes.io/function`,
regardless of the request's annotations. -/
theorem secret_never_carries_stripped (ext : Ext) (input : SopsSecretGenerator) (s : Secret)
    (h : generateSecret ext input = .ok s) :
    annLookup "config.kubernetes.io/local-config" s.annotations = none
    ∧ annLookup "config.kubernetes.io/function" s.annotations = none := by
  rw [generateSecret_ok_annotations ext input s h]
  exact ⟨annLookup_secretAnnotations_none input _ (by decide) (by decide) (by decide),
         annLookup_secretAnnotations_none input _ (by decide) (by decide) (by decide)⟩

/-- Witness for C5 at a request that does carry both internal keys. -/
theorem secret_never_carries_stripped_witness :
    annLookup "config.kubernetes.io/local-config" stripSecret.annotations = none
    ∧ annLookup "config.kubernetes.io/function" stripSecret.annotations = none :=
  secret_never_carries_stripped extStub stripInput stripSecret (by decide)

/-- Request fixture defeating the C6 biconditional: name-suffix hashing is
disabled, but the request's own annotations already carry the
`needs-hash` key, which is copied through. -/
def hashCarryInput : SopsSecretGenerator :=
  { apiVersion := apiVersion, kind := kind, name := "n", namespace1 := "", labels := []
    annotations := [("kustomize.config.k8s.io/needs-hash", "true")]
    envSources := [], fileSources := [], behavior := "", disableNameSuffixHash := true
    type := "" }

/-- The Secret generated from `hashCarryInput`. -/
def hashCarrySecret : Secret :=
  { apiVersion := "v1", kind := "Secret", name := "n", namespace1 := "", labels := []
    annotations := [("kustomize.config.k8s.io/needs-hash", "true")], data := [], type := "" }

/-- C6 counterexample: with `disableNameSuffixHash: true` and a request
whose annotations already contain `kustomize.config.k8s.io/needs-hash:
"true"`, the generated Secret carries the annotation with value `"true"`
even though the flag is true, so presence-with-"true" is not equivalent
to the flag being false. -/
theorem needs_hash_counterexample :
    generateSecret extStub hashCarryInput = .ok hashCarrySecret
    ∧ annLookup "kustomize.config.k8s.io/needs-hash" hashCarrySecret.annotations = some "true"
    ∧ hashCarryInput.disableNameSuffixHash = true := by
  decide

/-- C6 (amended: provided the request's own annotations do not already
contain the key): for every successfully generated Secret whose request
does not itself carry the `kustomize.config.k8s.io/needs-hash`
annotation, the annotation is present with value `"true"` if and only if
`disableNameSuffixHash` is false (including when omitted, Go's zero value);
when the flag is true the assembler does not add it, though a value
supplied in the request's annotations would be carried through. -/
theorem needs_hash_iff_not_disabled (ext : Ext) (input : SopsSecretGenerator) (s : Secret)
    (h : generateSecret ext input = .ok s)
    (hfree : annLookup "kustomize.config.k8s.io/needs-hash" input.annotations = none) :
    (annLookup "kustomize.config.k8s.io/needs-hash" s.annotations = some "true"
      ↔ input.disableNameSuffixHash = false) := by
  rw [generateSecret_ok_annotations ext input s h]
  have hbase : annLookup "kustomize.config.k8s.io/needs-hash"
      (input.annotations.filter (fun kv => !(stripAnnotations.contains kv.1))) = none :=
    annLookup_filter_of_none _ _ _ hfree
  have hbne : ("kustomize.config.k8s.io/behavior" : String) ≠
      "kustomize.config.k8s.io/needs-hash" := by decide
  simp only [secretAnnotations]
  split
  · split
    next hd =>
      rw [hbase]
      simp [hd]
    next hd =>
      simp only [annLookup, if_pos rfl]
      simp [Bool.not_eq_true] at hd
      simp [hd]
  · split
    next hd =>
      rw [annLookup_cons_ne _ _ _ _ hbne, hbase]
      simp [hd]
    next hd =>
      rw [annLookup_cons_ne _ _ _ _ hbne]
      simp only [annLookup, if_pos rfl]
      simp [Bool.not_eq_true] at hd
      simp [hd]

/-- Request fixture for the C6 witness: default flag, no annotations. -/
def hashDefaultInput : SopsSecretGenerator :=
  { apiVersion := apiVersion, kind := kind, name := "n", namespace1 := "", labels := []
    annotations := [], envSources := [], fileSources := [], behavior := ""
    disableNameSuffixHash := false, type := "" }

/-- The Secret generated from `hashDefaultInput`. -/
def hashDefaultSecret : Secret :=
  { apiVersion := "v1", kind := "Secret", name := "n", namespace1 := "", labels := []
    annotations := [("kustomize.config.k8s.io/needs-hash", "true")], data := [], type := "" }

/-- Witness for the amended C6 at a request with the default flag and no
annotations of its own. -/
theorem needs_hash_iff_not_disabled_witness :
    annLookup "kustomize.config.k8s.io/needs-hash" hashDefaultSecret.annotations = some "true"
      ↔ hashDefaultInput.disableNameSuffixHash = false :=
  needs_hash_iff_not_disabled extStub hashDefaultInput hashDefaultSecret (by decide) (by decide)

/-- A valid request with no sources: it transforms successfully under any
oracle. -/
def goodDoc : SopsSecretGenerator :=
  { apiVersion := apiVersion, kind := kind, name := "ok-doc", namespace1 := "", labels := []
    annotations := [], envSources := [], fileSources := [], behavior := ""
    disableNameSuffixHash := true, type := "" }

/-- The Secret generated from `goodDoc`. -/
def goodDocSecret : Secret :=
  { apiVersion := "v1", kind := "Secret", name := "ok-doc", namespace1 := "", labels := []
    annotations := [], data := [], type := "" }

/-- A request that fails validation (wrong `kind`). -/
def badDoc : SopsSecretGenerator :=
  { apiVersion := apiVersion, kind := "Wrong", name := "bad-doc", namespace1 := "", labels := []
    annotations := [], envSources := [], fileSources := [], behavior := ""
    disableNameSuffixHash := true, type := "" }

/-- C7 counterexample: in a batch whose first document transforms
successfully and whose second fails, the reported resource list is the
unchanged input list — it contains no Secret at all, so the Secrets
gathered before the failure are discarded rather than reported. -/
theorem krm_partial_discard_counterexample :
    processKObj extStub (KObj.gen goodDoc) = .ok goodDocSecret
    ∧ generateKRMManifest extStub [KObj.gen goodDoc, KObj.gen badDoc] =
        ([KObj.gen goodDoc, KObj.gen badDoc], false, some Err.badTypeMeta)
    ∧ (generateKRMManifest extStub [KObj.gen goodDoc, KObj.gen badDoc]).1.all
        (fun item => !item.isSecretItem) = true := by
  decide

/-- C7 (amended): the first failing document aborts processing with an
error and a false success flag, and the resource list reported with that
error is the unchanged input item list — the Secrets gathered from the
documents already transformed are discarded, not reported. -/
theorem krm_first_failure_keeps_input_items (ext : Ext) (front : List KObj) (x : KObj)
    (post : List KObj) (e : Err)
    (hfront : ∀ y ∈ front, ∃ s, processKObj ext y = .ok s)
    (hx : processKObj ext x = .error e) :
    generateKRMManifest ext (front ++ x :: post) = (front ++ x :: post, false, some e) := by
  have hrun : runItems ext (front ++ x :: post) = .error e := by
    induction front with
    | nil => simp [runItems, hx]
    | cons y rest ih =>
      obtain ⟨s, hs⟩ := hfront y (List.mem_cons_self y rest)
      have ih1 := ih fun z hz => hfront z (List.mem_cons_of_mem y hz)
      simp [runItems, hs, ih1]
  unfold generateKRMManifest
  rw [hrun]

/-- Witness for the amended C7 at the concrete two-document batch. -/
theorem krm_first_failure_keeps_input_items_witness :
    generateKRMManifest extStub [KObj.gen goodDoc, KObj.gen badDoc] =
      ([KObj.gen goodDoc, KObj.gen badDoc], false, some Err.badTypeMeta) :=
  krm_first_failure_keeps_input_items extStub [KObj.gen goodDoc] (KObj.gen badDoc) []
    Err.badTypeMeta
    (fun y hy => by
      rw [List.mem_singleton] at hy
      subst hy
      exact ⟨goodDocSecret, by decide⟩)
    (by decide)

/-- C8: a leading UTF-8 byte order mark is stripped only when it prefixes
line 0: prepending the mark to content that does not itself start with it
does not change the parse, while the same byte sequence at the start of a
later line is kept as literal content of that line (here it becomes part
of the stored key). -/
theorem bom_stripped_only_on_first_line :
    (∀ (content : List Nat) (data : kvMap), utf8bom.isPrefixOf content = false →
       parseDotEnvContent (utf8bom ++ content) data = parseDotEnvContent content data)
    ∧ parseDotEnvContent (strBytes "A=1\n" ++ utf8bom ++ strBytes "B=2") [] =
        .ok [(utf8bom ++ strBytes "B", base64Encode (strBytes "2")),
             (strBytes "A", base64Encode (strBytes "1"))] := by
  constructor
  · intro content data h
    have hnotpre : ∀ y : List Nat, y <+: content → utf8bom.isPrefixOf y = false := by
      intro y hy
      cases hby : utf8bom.isPrefixOf y with
      | false => rfl
      | true =>
        have : utf8bom.isPrefixOf content = true :=
          List.isPrefixOf_iff_prefix.mpr ((List.isPrefixOf_iff_prefix.mp hby).trans hy)
        rw [this] at h
        cases h
    by_cases hmem : (10 : Nat) ∈ content
    · have hAB := break_at_first 10 content hmem
      have hnA := not_mem_takeWhile_self 10 content
      have hpreA : content.takeWhile (fun x => x != 10) <+: content :=
        List.takeWhile_prefix _
      conv_lhs => rw [hAB]
      conv_rhs => rw [hAB]
      rw [← List.append_assoc]
      unfold parseDotEnvContent
      rw [splitLines_append _ _ (by
            intro hc
            rcases List.mem_append.mp hc with hcb | hca
            · exact absurd hcb (by decide)
            · exact hnA hca),
          splitLines_append _ _ hnA, dropCR_bom_append,
          parseDotEnvLines_cons_zero, parseDotEnvLines_cons_zero, trimBom_bom_append,
          trimBom_of_not_prefix _ (hnotpre _ ((dropCR_prefix_self _).trans hpreA))]
    · by_cases hnil : content = []
      · subst hnil
        rfl
      · unfold parseDotEnvContent
        rw [splitLines_no_nl _ (by
              intro hc
              rcases List.mem_append.mp hc with hcb | hca
              · exact absurd hcb (by decide)
              · exact hmem hca) (by simp [utf8bom]),
            splitLines_no_nl content hmem hnil, dropCR_bom_append,
            parseDotEnvLines_cons_zero, parseDotEnvLines_cons_zero, trimBom_bom_append,
            trimBom_of_not_prefix _ (hnotpre _ (dropCR_prefix_self content))]
  · decide

/-- Witness for C8: prepending the mark to `X=1` parses the same as the
bare content. -/
theorem bom_stripped_only_on_first_line_witness :
    parseDotEnvContent (utf8bom ++ strBytes "X=1") [] = parseDotEnvContent (strBytes "X=1") [] :=
  bom_stripped_only_on_first_line.1 (strBytes "X=1") [] (by decide)

/-- C9 counterexample: the claim covers every line whose first
non-whitespace character is `=`, but the line `=` followed by the invalid
byte `0xFF` is rejected by the UTF-8 validity check rather than stored
under the empty key. -/
theorem empty_key_counterexample :
    (trimLeftSpace [61, 255]).head? = some 61
    ∧ parseDotEnvLine [61, 255] [] = .error (.invalidUTF8 [61, 255])
    ∧ parseDotEnvLine [61, 255] [] ≠ .ok (kvInsert [] [] (base64Encode [255])) := by
  decide

/-- C9 (amended: the line must additionally be valid UTF-8, which the code
checks first): a valid-UTF-8 dotenv line whose first non-whitespace
character is `=` is not rejected: extraction succeeds and stores, under
the empty-string key, the base64 encoding of the bytes after that `=`; an
empty key is never reported as an error. -/
theorem empty_key_line_accepted (aLine : List Nat) (data : kvMap)
    (hv : utf8Valid aLine = true)
    (hhead : (trimLeftSpace aLine).head? = some 61) :
    parseDotEnvLine aLine data =
      .ok (kvInsert data [] (base64Encode ((trimLeftSpace aLine).drop 1))) := by
  unfold parseDotEnvLine
  rw [if_pos hv]
  cases ht : trimLeftSpace aLine with
  | nil => rw [ht] at hhead; cases hhead
  | cons c rest =>
    rw [ht] at hhead
    have hc : c = 61 := by
      simpa using hhead
    subst hc
    simp [splitFirstEq]

/-- Witness for C9 on the line `=abc`. -/
theorem empty_key_line_accepted_witness :
    parseDotEnvLine (strBytes "=abc") [] =
      .ok (kvInsert [] [] (base64Encode ((trimLeftSpace (strBytes "=abc")).drop 1))) :=
  empty_key_line_accepted _ _ (by decide) (by decide)

/-- C10 counterexample: the claim asserts a trailing carriage return never
appears in a stored value, but only one carriage return is removed per
line, so the content `A=1\r\r\n` stores the value bytes `1\r` (base64
`MQ0=`), not the fully stripped `1`. -/
theorem crlf_value_counterexample :
    parseDotEnvContent [65, 61, 49, 13, 13, 10] [] = .ok [([65], base64Encode [49, 13])]
    ∧ base64Encode [49, 13] ≠ base64Encode [49] := by
  decide

/-- C10 (amended: exactly one trailing carriage return is removed per
line, so a value can still end in a carriage return when the line ended in
`\r\r\n`): content is split at each newline byte, one trailing carriage
return is removed from each line before parsing, a final line without a
newline terminator is still parsed (with the same single-carriage-return
removal), and the removal strips exactly one trailing carriage return. -/
theorem line_splitting_crlf :
    (∀ a r : List Nat, 10 ∉ a → splitLines (a ++ 10 :: r) = dropCR a :: splitLines r)
    ∧ (∀ a : List Nat, 10 ∉ a → a ≠ [] → splitLines a = [dropCR a])
    ∧ (∀ v : List Nat, dropCR (v ++ [13]) = v)
    ∧ (∀ v : List Nat, dropCR (v ++ [13, 13]) = v ++ [13]) := by
  refine ⟨splitLines_append, splitLines_no_nl, dropCR_concat, ?_⟩
  intro v
  rw [show v ++ [13, 13] = (v ++ [13]) ++ [13] by simp, dropCR_concat]

/-- Witness for the amended C10: a CRLF-terminated line and a bare final
line. -/
theorem line_splitting_crlf_witness :
    splitLines [65, 13, 10, 66] = [[65], [66]] := by
  have h := line_splitting_crlf.1 [65, 13] [66] (by decide)
  exact h.trans (by decide)

end SSG
